import Mathlib

/-!
Verification of the payments dashboard component
(`app/dashboard/components/Payments.js`): a shallow embedding of its
defensive data-normalization pipeline (sanitizers, record normalizer,
filter engine) and proofs about the properties the design document
states for it.

Modelling conventions:
* JavaScript values are modelled by the inductive type `JsVal`.
  `hostObj` stands for a host object whose `toString`/`ToPrimitive`
  conversion may throw (`Except.error`), which is the only way the
  pure computations of this component can raise internally.
* JavaScript numbers are modelled as exact rationals (`JSNumber.fin`)
  together with `nan` and the two infinities; binary floating point
  rounding is idealized away (no claim in scope depends on it).
* Objects are association lists of fields; prototype-chain lookups are
  not modelled (`jsGet` sees own properties only).
* Fallible computations return `Except Unit` values; the `try/catch`
  blocks of the source become `match` on that `Except`.
-/

/-- JavaScript number: an exact rational, NaN, or an infinity. -/
inductive JSNumber where
  | fin (q : ℚ)
  | nan
  | posInf
  | negInf
deriving DecidableEq

/-- JavaScript value, as far as this component can observe it. -/
inductive JsVal where
  | undefinedVal
  | jnull
  | bool (b : Bool)
  | num (n : JSNumber)
  | str (s : String)
  | arr (elems : List JsVal)
  | obj (fields : List (String × JsVal))
  | hostObj (toStr : Except Unit String)

/-- `value == null` of the source: true exactly for `null` and `undefined`. -/
def isNullish : JsVal → Bool
  | .undefinedVal => true
  | .jnull => true
  | _ => false

/-- JavaScript truthiness (`!value` is its negation). -/
def jsTruthy : JsVal → Bool
  | .undefinedVal => false
  | .jnull => false
  | .bool b => b
  | .num (.fin q) => decide (q ≠ 0)
  | .num .nan => false
  | .num .posInf => true
  | .num .negInf => true
  | .str s => decide (s ≠ "")
  | .arr _ => true
  | .obj _ => true
  | .hostObj _ => true

/-- The `typeof` operator. -/
def jsTypeof : JsVal → String
  | .undefinedVal => "undefined"
  | .jnull => "object"
  | .bool _ => "boolean"
  | .num _ => "number"
  | .str _ => "string"
  | .arr _ => "object"
  | .obj _ => "object"
  | .hostObj _ => "object"

/-- `Array.isArray`. -/
def isJsArr : JsVal → Bool
  | .arr _ => true
  | _ => false

/-- Property access `v.k` / optional chaining `v?.k`, as used by the
component: yields the own property of an object, `undefined` otherwise.
(The source only dereferences non-nullish values without `?.`, so the
two coincide on every reachable call.) -/
def jsGet (v : JsVal) (k : String) : JsVal :=
  match v with
  | .obj fields =>
      match fields.find? (fun p => p.1 == k) with
      | some p => p.2
      | none => .undefinedVal
  | _ => .undefinedVal

-- ------------------------------------------------------------------
-- Constants of the source file
-- ------------------------------------------------------------------

/-- `DEFAULT_DATA`-shaped result of `getSafeData`. -/
structure SafeData where
  payments : List JsVal

/-- `const DEFAULT_DATA = { payments: [] }`. -/
def DEFAULT_DATA : SafeData := ⟨[]⟩

/-- `const FILTERS = [...]` (id, label). -/
def FILTERS : List (String × String) :=
  [("all", "All"), ("paid", "Paid"), ("refunded", "Refunded"), ("failed", "Failed")]

/-- `const PAYMENT_METHODS = {...}`. -/
def PAYMENT_METHODS : List (String × String) :=
  [("credit_card", "Credit Card"), ("debit_card", "Debit Card"),
   ("upi", "UPI"), ("netbanking", "Net Banking"), ("wallet", "Digital Wallet")]

-- ------------------------------------------------------------------
-- Record normalizer (`getSafeData`)
-- ------------------------------------------------------------------

/-- The object literal built for each raw entry inside
`data.payments.map(...)`: the fixed snake_case-to-camelCase field
correspondence. -/
def normalizeEntry (payment : JsVal) : JsVal :=
  .obj
    [("id", jsGet payment "id"),
     ("bookingId", jsGet payment "booking_id"),
     ("amount", jsGet payment "amount"),
     ("method", jsGet payment "method"),
     ("status", jsGet payment "status"),
     ("paidAt", jsGet payment "paid_at"),
     ("gatewayId", jsGet payment "gatewayId"),
     ("refundId", jsGet payment "refund_id"),
     ("refundTime", jsGet payment "refund_time"),
     ("apartmentTitle", jsGet payment "apartment_title"),
     ("startDate", jsGet payment "start_date"),
     ("endDate", jsGet payment "end_date")]

/-- The `.filter(...)` predicate applied after the map: truthy object,
not an array, with a truthy `id` or `bookingId`. -/
def keepEntry (payment : JsVal) : Bool :=
  jsTruthy payment && (jsTypeof payment == "object") && !(isJsArr payment) &&
    (jsTruthy (jsGet payment "id") || jsTruthy (jsGet payment "bookingId"))

/-- `getSafeData`: validates the top-level shape, maps raw entries to
canonical records and drops records without a truthy identity field.
The surrounding `try/catch` of the source is unreachable for the pure
data model (no getter can throw here), so the body is total. -/
def getSafeData (data : JsVal) : SafeData :=
  if !(jsTruthy data) || jsTypeof data != "object" || isJsArr data then
    DEFAULT_DATA
  else
    match jsGet data "payments" with
    | .arr entries => ⟨(entries.map normalizeEntry).filter keepEntry⟩
    | _ => ⟨DEFAULT_DATA.payments⟩

-- ------------------------------------------------------------------
-- String conversion (`String(value)`) and number rendering
-- ------------------------------------------------------------------

/-- Decimal digit character. -/
def natDigitChar (n : ℕ) : Char := Char.ofNat (48 + n % 10)

/-- Digits of a natural number, most significant first (fueled, the
fuel `n + 1` always suffices). -/
def natDigitsAux : ℕ → ℕ → List Char
  | 0, _ => []
  | fuel + 1, n =>
      if n < 10 then [natDigitChar n]
      else natDigitsAux fuel (n / 10) ++ [natDigitChar (n % 10)]

/-- Decimal digits of a natural number. -/
def natDigits (n : ℕ) : List Char := natDigitsAux (n + 1) n

/-- Left-pad a digit list with zeros to width `k`. -/
def padLeftZeros (k : ℕ) (ds : List Char) : List Char :=
  List.replicate (k - ds.length) '0' ++ ds

/-- Drop trailing zero digits. -/
def stripZerosRight (ds : List Char) : List Char :=
  (ds.reverse.dropWhile (fun c => c == '0')).reverse

/-- Smallest exponent `k ≤ 1100` with `den ∣ 10 ^ k`, if any.  Every
number representable in binary floating point has such an exponent;
the idealized rationals beyond that fragment fall back to integer
truncation below. -/
def denScaleExp (d : ℕ) : Option ℕ :=
  (List.range 1101).find? (fun k => 10 ^ k % d == 0)

/-- Decimal rendering of a rational, as JavaScript number-to-string
produces for the float-representable fragment (exponent notation for
very large or small magnitudes is idealized away). -/
def ratToDecimal (q : ℚ) : List Char :=
  let sign : List Char := if q < 0 then ['-'] else []
  let n := q.num.natAbs
  let d := q.den
  match denScaleExp d with
  | some k =>
      if k == 0 then sign ++ natDigits n
      else
        let scaled := n * 10 ^ k / d
        let ip := scaled / 10 ^ k
        let fpDigits := stripZerosRight (padLeftZeros k (natDigits (scaled % 10 ^ k)))
        if fpDigits.isEmpty then sign ++ natDigits ip
        else sign ++ natDigits ip ++ '.' :: fpDigits
  | none => sign ++ natDigits (n / d)

/-- JavaScript number-to-string. -/
def numToString : JSNumber → String
  | .nan => "NaN"
  | .posInf => "Infinity"
  | .negInf => "-Infinity"
  | .fin q => ⟨ratToDecimal q⟩

/-- Array-to-string (`Array.prototype.toString`, i.e. `join(",")`):
`null`/`undefined` elements become empty, others are converted
recursively; a throwing host object propagates its exception. -/
def arrToStringE : List JsVal → Except Unit String
  | [] => .ok ""
  | v :: vs =>
      let headE : Except Unit String :=
        match v with
        | .undefinedVal => .ok ""
        | .jnull => .ok ""
        | .bool b => .ok (if b then "true" else "false")
        | .num n => .ok (numToString n)
        | .str s => .ok s
        | .arr es => arrToStringE es
        | .obj _ => .ok "[object Object]"
        | .hostObj e => e
      match headE with
      | .error e => .error e
      | .ok a =>
          match vs with
          | [] => .ok a
          | w :: ws =>
              match arrToStringE (w :: ws) with
              | .error e => .error e
              | .ok b => .ok (a ++ "," ++ b)
termination_by l => sizeOf l
decreasing_by all_goals (simp_wf <;> omega)

/-- `String(value)`: total except for host objects whose conversion
throws (and arrays containing such an element). -/
def jsToStringE : JsVal → Except Unit String
  | .undefinedVal => .ok "undefined"
  | .jnull => .ok "null"
  | .bool b => .ok (if b then "true" else "false")
  | .num n => .ok (numToString n)
  | .str s => .ok s
  | .arr elems => arrToStringE elems
  | .obj _ => .ok "[object Object]"
  | .hostObj e => e

-- ------------------------------------------------------------------
-- `safeToString`: trim, the three regex replacements, length cap
-- ------------------------------------------------------------------

/-- Whitespace recognized by `String.prototype.trim`. -/
def isJsSpace (c : Char) : Bool :=
  c == ' ' || c == Char.ofNat 9 || c == Char.ofNat 10 || c == Char.ofNat 11 ||
  c == Char.ofNat 12 || c == Char.ofNat 13 || c == Char.ofNat 160 ||
  c == Char.ofNat 8232 || c == Char.ofNat 8233 || c == Char.ofNat 65279

/-- `trim()`. -/
def jsTrimList (l : List Char) : List Char :=
  ((l.dropWhile isJsSpace).reverse.dropWhile isJsSpace).reverse

/-- ASCII word character, the `\w` class. -/
def isWordChar (c : Char) : Bool :=
  ('a' ≤ c && c ≤ 'z') || ('A' ≤ c && c ≤ 'Z') || ('0' ≤ c && c ≤ '9') || c == '_'

/-- Double or single quote, the `["']` class. -/
def isQuoteChar (c : Char) : Bool :=
  c == Char.ofNat 34 || c == Char.ofNat 39

/-- ASCII case-insensitive prefix test; the pattern is given in
lowercase.  (For the ASCII literals of the source's `/i` regexes this
is exactly ECMAScript canonicalization.) -/
def ciStarts : List Char → List Char → Bool
  | [], _ => true
  | _ :: _, [] => false
  | p :: ps, c :: cs => (Char.toLower c == p) && ciStarts ps cs

/-- Characters consumed up to and including the first `</script>`
(case-insensitively), if one occurs. -/
def findCloseScript : List Char → Option Nat
  | [] => none
  | c :: cs =>
      if ciStarts "</script>".data (c :: cs) then some 9
      else
        match findCloseScript cs with
        | some k => some (k + 1)
        | none => none

/-- Match of `/<script\b[^<]*(?:(?!<\/script>)<[^<]*)*<\/script>/i` at
the head of the list: `<script` followed by a non-word character,
extending to the first subsequent `</script>` (the bracketed middle of
the regex matches exactly the `</script>`-free gap in between).
Returns the number of characters consumed. -/
def mScript (l : List Char) : Option Nat :=
  if ciStarts "<script".data l then
    match l.drop 7 with
    | [] => none
    | c :: _ =>
        if isWordChar c then none
        else
          match findCloseScript (l.drop 7) with
          | some k => some (7 + k)
          | none => none
  else none

/-- Match of `/on\w+=["'][^"']*["']/` (case-sensitive) at the head of
the list: `on`, a nonempty maximal word-character run, `=`, a quote,
a quote-free run, a closing quote.  Returns the characters consumed. -/
def mOnAttr (l : List Char) : Option Nat :=
  match l with
  | c1 :: c2 :: rest =>
      if c1 == 'o' && c2 == 'n' then
        let w := rest.takeWhile isWordChar
        if w.length == 0 then none
        else
          match rest.drop w.length with
          | ceq :: rest2 =>
              if ceq == '=' then
                match rest2 with
                | q :: rest3 =>
                    if isQuoteChar q then
                      let body := rest3.takeWhile (fun c => !(isQuoteChar c))
                      match rest3.drop body.length with
                      | _ :: _ => some (2 + w.length + 2 + body.length + 1)
                      | [] => none
                    else none
                | [] => none
              else none
          | [] => none
      else none
  | _ => none

/-- Match of `/javascript:/i` at the head of the list. -/
def mJavascript (l : List Char) : Option Nat :=
  if ciStarts "javascript:".data l then some 11 else none

/-- One global `String.prototype.replace(regex, "")` pass: scan left to
right, deleting each match and resuming right after it.  Every matcher
above consumes at least one character on success, so fuel equal to the
list length makes the fuel-exhaustion clause unreachable and this
computes the replacement pass exactly. -/
def scanStrip (m : List Char → Option Nat) : ℕ → List Char → List Char
  | _, [] => []
  | 0, l => l
  | fuel + 1, c :: cs =>
      match m (c :: cs) with
      | some k => scanStrip m fuel ((c :: cs).drop k)
      | none => c :: scanStrip m fuel cs

/-- `.replace(/<script.../gi, "")`. -/
def stripScriptTags (l : List Char) : List Char := scanStrip mScript l.length l

/-- `.replace(/on\w+=["'][^"']*["']/g, "")`. -/
def stripOnAttrs (l : List Char) : List Char := scanStrip mOnAttr l.length l

/-- `.replace(/javascript:/gi, "")`. -/
def stripJavascriptUris (l : List Char) : List Char := scanStrip mJavascript l.length l

/-- `safeToString(value, defaultValue)`: default for nullish input,
otherwise stringify, trim, strip script tags, inline handlers and
`javascript:` occurrences, and cap at 500 characters; the `catch`
returns the default if stringification throws.  (The source declares
`defaultValue = ''`; call sites of this file pass the default
explicitly.) -/
def safeToString (value : JsVal) (defaultValue : String) : String :=
  if isNullish value then defaultValue
  else
    match jsToStringE value with
    | .error _ => defaultValue
    | .ok s =>
        ⟨(stripJavascriptUris (stripOnAttrs (stripScriptTags (jsTrimList s.data)))).take 500⟩

-- ------------------------------------------------------------------
-- `safePaymentMethod`
-- ------------------------------------------------------------------

/-- `toLowerCase()` (ASCII; the method-table keys are ASCII). -/
def strLowerAscii (s : String) : String := ⟨s.data.map Char.toLower⟩

/-- Own-property step of the bracket lookup `table[k]` on an object
literal; a miss here continues into the prototype chain. -/
def lookupLabel (table : List (String × String)) (k : String) : Option String :=
  match table.find? (fun p => p.1 == k) with
  | some p => some p.2
  | none => none

/-- Property names a plain object literal inherits from
`Object.prototype`: a bracket lookup with one of these keys hits the
prototype chain and yields a truthy value (a function, or for
`__proto__` the prototype object itself) although the literal has no
such own property.  After `toLowerCase()` only the all-lowercase names
`constructor` and `__proto__` remain reachable. -/
def objectProtoKeys : List String :=
  ["constructor", "hasOwnProperty", "isPrototypeOf", "propertyIsEnumerable",
   "toLocaleString", "toString", "valueOf", "__defineGetter__", "__defineSetter__",
   "__lookupGetter__", "__lookupSetter__", "__proto__"]

/-- Result of the payment-method sanitizer: the source returns either
a display string, or — when the table lookup hits a truthy member
inherited from `Object.prototype` — that inherited function/object
(`hostValue`, tagged by the property name). -/
inductive MethodDisplay where
  | str (s : String)
  | hostValue (name : String)
deriving DecidableEq

/-- Whether the payment-method result is an actual string. -/
def isStringDisplay : MethodDisplay → Bool
  | .str _ => true
  | .hostValue _ => false

/-- `safePaymentMethod(method)`: lower-cased sanitized lookup in
`PAYMENT_METHODS`.  The bracket lookup `PAYMENT_METHODS[safeMethod]`
sees own properties first (`lookupLabel`) and then the prototype
chain: for a key in `objectProtoKeys` it yields the truthy inherited
member, which the `||` returns as-is; only an absent (or falsy)
lookup falls through to `safeToString(method, 'Unknown')`. -/
def safePaymentMethod (method : JsVal) : MethodDisplay :=
  let safeMethod := strLowerAscii (safeToString method "")
  match lookupLabel PAYMENT_METHODS safeMethod with
  | some label =>
      if label == "" then .str (safeToString method "Unknown") else .str label
  | none =>
      if objectProtoKeys.contains safeMethod then .hostValue safeMethod
      else .str (safeToString method "Unknown")

-- ------------------------------------------------------------------
-- Number coercion (`Number(value)`)
-- ------------------------------------------------------------------

/-- Decimal digit predicate. -/
def isDigitChar (c : Char) : Bool := '0' ≤ c && c ≤ '9'

/-- Value of a digit character in radix up to 16. -/
def hexDigitVal (c : Char) : ℕ :=
  if isDigitChar c then c.toNat - 48
  else if 'a' ≤ c && c ≤ 'f' then c.toNat - 87
  else if 'A' ≤ c && c ≤ 'F' then c.toNat - 55
  else 0

/-- Digit-list to natural number in the given radix. -/
def radixToNat (r : ℕ) (ds : List Char) : ℕ :=
  ds.foldl (fun acc c => r * acc + hexDigitVal c) 0

/-- Exponent suffix of a numeric literal (`e`/`E`, optional sign,
digits); `none` on trailing garbage, `some 0` on an empty tail. -/
def parseExpPart (l : List Char) : Option Int :=
  match l with
  | [] => some 0
  | e :: rest =>
      if e == 'e' || e == 'E' then
        let (neg, ds) :=
          match rest with
          | '+' :: rest2 => (false, rest2)
          | '-' :: rest2 => (true, rest2)
          | _ => (false, rest)
        if ds.length != 0 && ds.all isDigitChar then
          some (if neg then -(radixToNat 10 ds : Int) else (radixToNat 10 ds : Int))
        else none
      else none

/-- Scale a rational by a power of ten. -/
def applyExp (q : ℚ) (e : Int) : ℚ :=
  if 0 ≤ e then q * (10 : ℚ) ^ e.toNat else q / (10 : ℚ) ^ (-e).toNat

/-- Unsigned decimal literal `digits [. digits] [exponent]` with at
least one digit; `none` if the list is not entirely such a literal. -/
def parseDecimalTail (l : List Char) : Option ℚ :=
  let ip := l.takeWhile isDigitChar
  let rest1 := l.drop ip.length
  match rest1 with
  | '.' :: rest2 =>
      let fp := rest2.takeWhile isDigitChar
      let rest3 := rest2.drop fp.length
      if ip.length == 0 && fp.length == 0 then none
      else
        match parseExpPart rest3 with
        | some e =>
            some (applyExp ((radixToNat 10 ip : ℚ) +
              (radixToNat 10 fp : ℚ) / (10 : ℚ) ^ fp.length) e)
        | none => none
  | _ =>
      if ip.length == 0 then none
      else
        match parseExpPart rest1 with
        | some e => some (applyExp (radixToNat 10 ip : ℚ) e)
        | none => none

/-- Unsigned non-decimal literal `0x…`/`0o…`/`0b…`. -/
def parseNonDecimal (l : List Char) : Option ℚ :=
  match l with
  | '0' :: x :: rest =>
      if x == 'x' || x == 'X' then
        if rest.length != 0 &&
            rest.all (fun c => isDigitChar c || ('a' ≤ c && c ≤ 'f') || ('A' ≤ c && c ≤ 'F')) then
          some (radixToNat 16 rest : ℚ)
        else none
      else if x == 'o' || x == 'O' then
        if rest.length != 0 && rest.all (fun c => '0' ≤ c && c ≤ '7') then
          some (radixToNat 8 rest : ℚ)
        else none
      else if x == 'b' || x == 'B' then
        if rest.length != 0 && rest.all (fun c => c == '0' || c == '1') then
          some (radixToNat 2 rest : ℚ)
        else none
      else none
  | _ => none

/-- ECMAScript string-to-number: trimmed empty string is `0`, signed
`Infinity` and decimal literals, unsigned non-decimal literals,
anything else `NaN` (float rounding idealized away). -/
def strToNumber (s : String) : JSNumber :=
  let t := jsTrimList s.data
  if t.isEmpty then .fin 0
  else
    let (signed, neg, body) :=
      match t with
      | '-' :: rest => (true, true, rest)
      | '+' :: rest => (true, false, rest)
      | _ => (false, false, t)
    if body == "Infinity".data then (if neg then .negInf else .posInf)
    else
      match (if signed then none else parseNonDecimal t) with
      | some q => .fin q
      | none =>
          match parseDecimalTail body with
          | some q => .fin (if neg then -q else q)
          | none => .nan

/-- `Number(value)`: total except for throwing host conversions. -/
def jsToNumberE : JsVal → Except Unit JSNumber
  | .undefinedVal => .ok .nan
  | .jnull => .ok (.fin 0)
  | .bool b => .ok (.fin (if b then 1 else 0))
  | .num n => .ok n
  | .str s => .ok (strToNumber s)
  | .arr es =>
      match arrToStringE es with
      | .error u => .error u
      | .ok s => .ok (strToNumber s)
  | .obj _ => .ok (strToNumber "[object Object]")
  | .hostObj e =>
      match e with
      | .error u => .error u
      | .ok s => .ok (strToNumber s)

-- ------------------------------------------------------------------
-- `toLocaleString('en-IN')` and the number/currency sanitizers
-- ------------------------------------------------------------------

/-- Comma separators every two digits, on a reversed digit list. -/
def chunkRev2 : List Char → List Char
  | [] => []
  | [a] => [a]
  | [a, b] => [a, b]
  | a :: b :: c :: rest => a :: b :: ',' :: chunkRev2 (c :: rest)

/-- Indian digit grouping: rightmost group of three, then groups of
two. -/
def groupIndian (ds : List Char) : List Char :=
  if ds.length ≤ 3 then ds
  else
    let cut := ds.length - 3
    (chunkRev2 (ds.take cut).reverse).reverse ++ ',' :: ds.drop cut

/-- `Number.prototype.toLocaleString('en-IN')`: Indian grouping, at
most three fraction digits, ties rounded away from zero. -/
def toLocaleStringEnIN (q : ℚ) : String :=
  let n := q.num.natAbs
  let d := q.den
  let scaled : ℕ := (2000 * n + d) / (2 * d)
  let ip := scaled / 1000
  let fp := scaled % 1000
  let fpCs : List Char :=
    if fp == 0 then [] else '.' :: stripZerosRight (padLeftZeros 3 (natDigits fp))
  ⟨(if q < 0 then ['-'] else []) ++ groupIndian (natDigits ip) ++ fpCs⟩

/-- `safeFormatNumber(value, defaultValue)`; the source declares
`defaultValue = 'N/A'`, call sites here pass it explicitly. -/
def safeFormatNumber (value : JsVal) (defaultValue : String) : String :=
  if isNullish value then defaultValue
  else
    match jsToNumberE value with
    | .error _ => defaultValue
    | .ok .nan => defaultValue
    | .ok .posInf => defaultValue
    | .ok .negInf => defaultValue
    | .ok (.fin q) =>
        if q < 0 ∨ q > 100000000 then "Invalid"
        else toLocaleStringEnIN q

/-- `safeFormatCurrency(value, currency, defaultValue)`; the source
declares `currency = '₹'` and `defaultValue = 'N/A'`. -/
def safeFormatCurrency (value : JsVal) (currency : String) (defaultValue : String) : String :=
  if isNullish value then defaultValue
  else
    match jsToNumberE value with
    | .error _ => defaultValue
    | .ok .nan => defaultValue
    | .ok .posInf => defaultValue
    | .ok .negInf => defaultValue
    | .ok (.fin q) =>
        if q < 0 ∨ q > 100000000 then currency ++ "Invalid"
        else currency ++ toLocaleStringEnIN q

-- ------------------------------------------------------------------
-- Date sanitizer
-- ------------------------------------------------------------------

/-- Truncation of a rational toward zero. -/
def ratTruncToInt (q : ℚ) : Int :=
  if q < 0 then -(((-q).num.natAbs / (-q).den : ℕ) : Int)
  else ((q.num.natAbs / q.den : ℕ) : Int)

/-- ECMAScript `TimeClip`: epoch milliseconds within ±8.64e15,
truncated toward zero; `none` is an invalid date (`NaN` time value). -/
def timeClip (q : ℚ) : Option Int :=
  if q < -8640000000000000 ∨ q > 8640000000000000 then none
  else some (ratTruncToInt q)

/-- Time value of `new Date(n)` for a number argument. -/
def numToTime : JSNumber → Option Int
  | .fin q => timeClip q
  | _ => none

/-- Time value of `new Date(value)`.  String parsing is
implementation-defined by ECMA-262 beyond the ISO format, so it is a
parameter `parse` (returning the epoch-millisecond value, or `none`
for an unparseable string); objects are converted to strings first. -/
def jsToDateE (parse : String → Option Int) : JsVal → Except Unit (Option Int)
  | .undefinedVal => .ok none
  | .jnull => .ok (some 0)
  | .bool b => .ok (some (if b then 1 else 0))
  | .num n => .ok (numToTime n)
  | .str s => .ok (parse s)
  | .arr es =>
      match arrToStringE es with
      | .error u => .error u
      | .ok s => .ok (parse s)
  | .obj _ => .ok (parse "[object Object]")
  | .hostObj e =>
      match e with
      | .error u => .error u
      | .ok s => .ok (parse s)

/-- Proleptic Gregorian calendar date from days since 1970-01-01
(year, month 1..12, day 1..31). -/
def civilFromDays (z0 : Int) : Int × ℕ × ℕ :=
  let z := z0 + 719468
  let era := Int.ediv z 146097
  let doe := (z - era * 146097).toNat
  let yoe := (doe - doe / 1460 + doe / 36524 - doe / 146096) / 365
  let doy := doe - (365 * yoe + yoe / 4 - yoe / 100)
  let mp := (5 * doy + 2) / 153
  let day := doy - (153 * mp + 2) / 5 + 1
  let month := if mp < 10 then mp + 3 else mp - 9
  let year := (yoe : Int) + era * 400 + (if month ≤ 2 then 1 else 0)
  (year, month, day)

/-- Short month names of the en-IN locale. -/
def monthShortEnIN : ℕ → List Char
  | 1 => "Jan".data
  | 2 => "Feb".data
  | 3 => "Mar".data
  | 4 => "Apr".data
  | 5 => "May".data
  | 6 => "Jun".data
  | 7 => "Jul".data
  | 8 => "Aug".data
  | 9 => "Sep".data
  | 10 => "Oct".data
  | 11 => "Nov".data
  | _ => "Dec".data

/-- Two-digit zero-padded rendering. -/
def pad2 (n : ℕ) : List Char := if n < 10 then '0' :: natDigits n else natDigits n

/-- Decimal rendering of an integer. -/
def intDigits (i : Int) : List Char :=
  if i < 0 then '-' :: natDigits i.natAbs else natDigits i.natAbs

/-- `toLocaleDateString('en-IN', {...})` with numeric year/day, short
month, 2-digit hour and minute: "12 Mar 2024, 02:30 pm".  The host
timezone is modelled as UTC. -/
def formatDateEnIN (t : Int) : String :=
  let days := Int.ediv t 86400000
  let ms := (Int.emod t 86400000).toNat
  let c := civilFromDays days
  let hour := ms / 3600000
  let minute := ms % 3600000 / 60000
  let h12 := (hour + 11) % 12 + 1
  let ampm : List Char := if hour < 12 then "am".data else "pm".data
  ⟨natDigits c.2.2 ++ ' ' :: monthShortEnIN c.2.1 ++ ' ' :: intDigits c.1 ++
    ',' :: ' ' :: pad2 h12 ++ ':' :: pad2 minute ++ ' ' :: ampm⟩

/-- `safeFormatDate(dateString, defaultValue)`: default for falsy
input, default for unparseable dates, the `"Invalid Date"` sentinel
for timestamps more than one day (86400000 ms) after `now`, otherwise
the locale-formatted date and time.  `parse` and `now` are the
host-parsing and current-time parameters; the source declares
`defaultValue = 'N/A'`. -/
def safeFormatDate (parse : String → Option Int) (now : Int) (dateString : JsVal)
    (defaultValue : String) : String :=
  if !(jsTruthy dateString) then defaultValue
  else
    match jsToDateE parse dateString with
    | .error _ => defaultValue
    | .ok none => defaultValue
    | .ok (some t) =>
        if t > now + 86400000 then "Invalid Date"
        else formatDateEnIN t

-- ------------------------------------------------------------------
-- Filter engine
-- ------------------------------------------------------------------

/-- `handleFilterChange`: accept a requested filter only when it is a
string and one of the `FILTERS` ids; otherwise keep the current
selector (the `try/catch` body cannot throw). -/
def handleFilterChange (current : String) (newFilter : JsVal) : String :=
  match newFilter with
  | .str s => if FILTERS.any (fun f => f.1 == s) then s else current
  | _ => current

/-- `filteredPayments`: drop non-object entries, keep everything under
the `all` selector, otherwise keep records whose sanitized status
equals the selector exactly. -/
def filteredPayments (payments : List JsVal) (filter : String) : List JsVal :=
  payments.filter fun payment =>
    if !(jsTruthy payment) || jsTypeof payment != "object" then false
    else if filter == "all" then true
    else safeToString (jsGet payment "status") "" == filter

-- ------------------------------------------------------------------
-- Auxiliary observations and shared lemmas
-- ------------------------------------------------------------------

/-- Key list of a normalized record. -/
def objKeys : JsVal → List String
  | .obj fields => fields.map Prod.fst
  | _ => []

/-- The post-map filter predicate, expressed on the raw entry: the
mapped literal is always a non-array object, so only the identity
check remains. -/
theorem keepEntry_normalizeEntry (e : JsVal) :
    keepEntry (normalizeEntry e) =
      (jsTruthy (jsGet e "id") || jsTruthy (jsGet e "booking_id")) := rfl

/-- Every record in a normalized set is the image of some raw entry
under `normalizeEntry`. -/
theorem payments_mem_normalized (data r : JsVal)
    (h : r ∈ (getSafeData data).payments) : ∃ e, r = normalizeEntry e := by
  unfold getSafeData at h
  split at h
  · simp [DEFAULT_DATA] at h
  · split at h
    · have hmem := (List.mem_filter.mp h).1
      obtain ⟨e, _, he⟩ := List.mem_map.mp hmem
      exact ⟨e, he.symm⟩
    · simp [DEFAULT_DATA] at h

/-- C5: a raw payload whose top level is not a non-array object, or
whose `payments` key is missing or not an array, normalizes to the
empty record set (and the model is a total function: nothing is
raised). -/
theorem C5_theorem (data : JsVal)
    (h : (jsTruthy data = false ∨ jsTypeof data ≠ "object" ∨ isJsArr data = true) ∨
      ∀ entries, jsGet data "payments" ≠ JsVal.arr entries) :
    getSafeData data = DEFAULT_DATA := by
  unfold getSafeData
  rcases h with (h | h | h) | h
  · rw [if_pos (by simp [h])]
  · rw [if_pos (by simp [bne_iff_ne, h])]
  · rw [if_pos (by simp [h])]
  · by_cases hg : (!(jsTruthy data) || jsTypeof data != "object" || isJsArr data) = true
    · rw [if_pos hg]
    · rw [if_neg hg]
      cases hm : jsGet data "payments" <;>
        first
        | exact absurd hm (h _)
        | rfl

/-- C5 witness: an array-as-top-level payload and an object whose
`payments` is a string both normalize to the empty set. -/
theorem C5_witness :
    getSafeData (JsVal.arr [JsVal.obj [("id", JsVal.str "p1")]]) = DEFAULT_DATA ∧
    getSafeData (JsVal.obj [("payments", JsVal.str "x")]) = DEFAULT_DATA :=
  ⟨C5_theorem _ (Or.inl (Or.inr (Or.inr rfl))),
   C5_theorem _ (Or.inr (fun _ h => JsVal.noConfusion h))⟩

/-- C10: every normalized record carries exactly the fixed canonical
field set, in order; keys of the raw entry outside the fixed
correspondence never appear. -/
theorem C10_theorem (data r : JsVal) (h : r ∈ (getSafeData data).payments) :
    objKeys r = ["id", "bookingId", "amount", "method", "status", "paidAt",
      "gatewayId", "refundId", "refundTime", "apartmentTitle", "startDate", "endDate"] := by
  obtain ⟨e, rfl⟩ := payments_mem_normalized data r h
  rfl

/-- C10 witness: a raw entry smuggling an extra `evil` key yields a
record with only the canonical keys. -/
theorem C10_witness :
    objKeys (normalizeEntry (JsVal.obj [("id", JsVal.str "p1"), ("evil", JsVal.str "x")])) =
      ["id", "bookingId", "amount", "method", "status", "paidAt",
       "gatewayId", "refundId", "refundTime", "apartmentTitle", "startDate", "endDate"] :=
  C10_theorem (JsVal.obj [("payments",
      JsVal.arr [JsVal.obj [("id", JsVal.str "p1"), ("evil", JsVal.str "x")]])]) _
    (by
      show normalizeEntry (JsVal.obj [("id", JsVal.str "p1"), ("evil", JsVal.str "x")]) ∈
        [normalizeEntry (JsVal.obj [("id", JsVal.str "p1"), ("evil", JsVal.str "x")])]
      exact List.mem_singleton.mpr rfl)

/-- C1 counterexample: the raw entry `{id: 0}` has its identity field
`id` present and non-null, yet the normalized set is empty — the
source tests truthiness, not presence. -/
theorem C1_counterexample :
    jsGet (JsVal.obj [("id", JsVal.num (JSNumber.fin 0))]) "id" = JsVal.num (JSNumber.fin 0) ∧
    JsVal.num (JSNumber.fin 0) ≠ JsVal.jnull ∧
    JsVal.num (JSNumber.fin 0) ≠ JsVal.undefinedVal ∧
    (getSafeData (JsVal.obj [("payments",
      JsVal.arr [JsVal.obj [("id", JsVal.num (JSNumber.fin 0))]])])).payments = [] :=
  ⟨rfl, fun h => JsVal.noConfusion h, fun h => JsVal.noConfusion h, rfl⟩

/-- C1 (amended): the normalized set keeps exactly the raw entries
with a truthy `id` or `booking_id` (so entries lacking both are
absent, and each kept entry yields exactly one record, in order);
entries whose identity fields are present but falsy (`0`, `""`,
`false`, `NaN`, `null`) are dropped as well. -/
theorem C1_theorem (fs : List (String × JsVal)) (entries : List JsVal)
    (h : jsGet (JsVal.obj fs) "payments" = JsVal.arr entries) :
    (getSafeData (JsVal.obj fs)).payments =
      (entries.filter
        (fun e => jsTruthy (jsGet e "id") || jsTruthy (jsGet e "booking_id"))).map
        normalizeEntry := by
  have key : getSafeData (JsVal.obj fs) = ⟨(entries.map normalizeEntry).filter keepEntry⟩ := by
    unfold getSafeData
    rw [if_neg (by simp [jsTruthy, jsTypeof, isJsArr])]
    rw [h]
  rw [key, List.filter_map]
  rfl

/-- C1 witness: of two raw entries, the one with a truthy `id` is kept
as exactly one record and the identity-free one is dropped. -/
theorem C1_witness :
    (getSafeData (JsVal.obj [("payments",
        JsVal.arr [JsVal.obj [("id", JsVal.str "a")], JsVal.obj [("amount", JsVal.num (JSNumber.fin 5))]])])).payments =
      ([JsVal.obj [("id", JsVal.str "a")], JsVal.obj [("amount", JsVal.num (JSNumber.fin 5))]].filter
        (fun e => jsTruthy (jsGet e "id") || jsTruthy (jsGet e "booking_id"))).map
        normalizeEntry :=
  C1_theorem _ _ rfl

/-- C7: on a normalized record set, filtering is idempotent, the `all`
selector is the identity, and a non-`all` selector of the filter
vocabulary keeps exactly the records whose sanitized status equals the
selector (case-sensitively), in input order. -/
theorem C7_theorem (data : JsVal) (sel : String) :
    (filteredPayments (filteredPayments (getSafeData data).payments sel) sel =
      filteredPayments (getSafeData data).payments sel) ∧
    (filteredPayments (getSafeData data).payments "all" = (getSafeData data).payments) ∧
    (sel ∈ ["paid", "refunded", "failed"] →
      filteredPayments (getSafeData data).payments sel =
        (getSafeData data).payments.filter
          (fun r => safeToString (jsGet r "status") "" == sel)) := by
  refine ⟨?_, ?_, ?_⟩
  · unfold filteredPayments
    rw [List.filter_filter]
    exact List.filter_congr (fun r _ => Bool.and_self _)
  · unfold filteredPayments
    apply List.filter_eq_self.mpr
    intro r hr
    obtain ⟨e, rfl⟩ := payments_mem_normalized data r hr
    rfl
  · intro hsel
    unfold filteredPayments
    apply List.filter_congr
    intro r hr
    obtain ⟨e, rfl⟩ := payments_mem_normalized data r hr
    have hne : sel ≠ "all" := by rintro rfl; simp at hsel
    have hfalse : (sel == "all") = false := by simp [hne]
    simp only [hfalse]
    rfl

/-- C7 witness: with one paid and one refunded record, the `refunded`
selector keeps exactly the status-matching subset. -/
theorem C7_witness :
    filteredPayments
        (getSafeData (JsVal.obj [("payments", JsVal.arr
          [JsVal.obj [("id", JsVal.str "a"), ("status", JsVal.str "paid")],
           JsVal.obj [("id", JsVal.str "b"), ("status", JsVal.str "refunded")]])])).payments
        "refunded" =
      (getSafeData (JsVal.obj [("payments", JsVal.arr
          [JsVal.obj [("id", JsVal.str "a"), ("status", JsVal.str "paid")],
           JsVal.obj [("id", JsVal.str "b"), ("status", JsVal.str "refunded")]])])).payments.filter
        (fun r => safeToString (jsGet r "status") "" == "refunded") :=
  (C7_theorem _ "refunded").2.2 (by simp)

/-- A filter-change step never leaves the filter vocabulary. -/
theorem handleFilterChange_mem (cur : String) (req : JsVal)
    (h : cur ∈ FILTERS.map Prod.fst) :
    handleFilterChange cur req ∈ FILTERS.map Prod.fst := by
  cases req with
  | str s =>
      simp only [handleFilterChange]
      by_cases ha : FILTERS.any (fun f => f.1 == s) = true
      · rw [if_pos ha]
        obtain ⟨f, hf, hfs⟩ := List.any_eq_true.mp ha
        exact List.mem_map.mpr ⟨f, hf, by simpa using hfs⟩
      · rw [if_neg ha]; exact h
  | undefinedVal => exact h
  | jnull => exact h
  | bool b => exact h
  | num n => exact h
  | arr es => exact h
  | obj fields => exact h
  | hostObj e => exact h

/-- C8: a requested selector is adopted exactly when it is the string
id of one of the `FILTERS`; any other request is a no-op; consequently
every state reachable from `all` stays inside the enumeration. -/
theorem C8_theorem :
    (∀ cur s, s ∈ FILTERS.map Prod.fst → handleFilterChange cur (JsVal.str s) = s) ∧
    (∀ cur req, (∀ s, req = JsVal.str s → s ∉ FILTERS.map Prod.fst) →
      handleFilterChange cur req = cur) ∧
    (∀ reqs : List JsVal, List.foldl handleFilterChange "all" reqs ∈ FILTERS.map Prod.fst) := by
  refine ⟨?_, ?_, ?_⟩
  · intro cur s hs
    simp only [handleFilterChange]
    rw [if_pos]
    obtain ⟨f, hf, hfe⟩ := List.mem_map.mp hs
    exact List.any_eq_true.mpr ⟨f, hf, by simp [hfe]⟩
  · intro cur req hreq
    cases req with
    | str s =>
        simp only [handleFilterChange]
        rw [if_neg]
        intro ha
        obtain ⟨f, hf, hfs⟩ := List.any_eq_true.mp ha
        exact hreq s rfl (List.mem_map.mpr ⟨f, hf, by simpa using hfs⟩)
    | undefinedVal => rfl
    | jnull => rfl
    | bool b => rfl
    | num n => rfl
    | arr es => rfl
    | obj fields => rfl
    | hostObj e => rfl
  · intro reqs
    have general : ∀ (rs : List JsVal) (cur : String), cur ∈ FILTERS.map Prod.fst →
        List.foldl handleFilterChange cur rs ∈ FILTERS.map Prod.fst := by
      intro rs
      induction rs with
      | nil => intro cur h; simpa using h
      | cons r rest ih => intro cur h; exact ih _ (handleFilterChange_mem cur r h)
    exact general reqs "all" (by simp [FILTERS])

/-- C8 witness: `paid` is adopted, `bogus` is a no-op, and a mixed
request sequence ends inside the enumeration. -/
theorem C8_witness :
    handleFilterChange "all" (JsVal.str "paid") = "paid" ∧
    handleFilterChange "paid" (JsVal.str "bogus") = "paid" ∧
    List.foldl handleFilterChange "all"
      [JsVal.str "paid", JsVal.num JSNumber.nan, JsVal.str "zzz"] ∈ FILTERS.map Prod.fst :=
  ⟨C8_theorem.1 "all" "paid" (by decide),
   C8_theorem.2.1 "paid" (JsVal.str "bogus")
     (by intro s h; injection h with h2; subst h2; decide),
   C8_theorem.2.2 [JsVal.str "paid", JsVal.num JSNumber.nan, JsVal.str "zzz"]⟩

-- ------------------------------------------------------------------
-- Sanitizer properties
-- ------------------------------------------------------------------

/-- Substring occurrence test (contiguous, case-sensitive). -/
def containsSeq (pat : List Char) : List Char → Bool
  | [] => pat.isEmpty
  | c :: cs => pat.isPrefixOf (c :: cs) || containsSeq pat cs

/-- A nonempty character list makes a nonempty string. -/
theorem strMk_ne_empty (l : List Char) (h : l ≠ []) : (⟨l⟩ : String) ≠ "" := by
  intro he
  exact h (congrArg String.data he)

/-- One replacement pass only deletes characters. -/
theorem scanStrip_sublist (m : List Char → Option ℕ) :
    ∀ (fuel : ℕ) (l : List Char), (scanStrip m fuel l).Sublist l := by
  intro fuel
  induction fuel with
  | zero =>
      intro l
      cases l with
      | nil => simp [scanStrip]
      | cons c cs => simp [scanStrip]
  | succ n ih =>
      intro l
      cases l with
      | nil => simp [scanStrip]
      | cons c cs =>
          simp only [scanStrip]
          split
          · exact (ih _).trans (List.drop_sublist _ _)
          · exact List.Sublist.cons₂ c (ih cs)

/-- Trimming only deletes characters. -/
theorem jsTrimList_sublist (l : List Char) : (jsTrimList l).Sublist l := by
  unfold jsTrimList
  have h2 := (List.dropWhile_sublist (l := (l.dropWhile isJsSpace).reverse) isJsSpace).reverse
  rw [List.reverse_reverse] at h2
  exact h2.trans (List.dropWhile_sublist _)

/-- C2 counterexample: on the crafted input
`"jajavascript:vascript:"` the single-pass removal reassembles a
`javascript:` occurrence, so the sanitizer's output still contains
one (it is exactly `"javascript:"`). -/
theorem C2_counterexample :
    safeToString (JsVal.str "jajavascript:vascript:") "" = "javascript:" ∧
    containsSeq "javascript:".data
      (safeToString (JsVal.str "jajavascript:vascript:") "").data = true :=
  ⟨rfl, rfl⟩

/-- C2 (amended): the sanitizer returns the supplied default for
`null`/`undefined`; for any other input whose stringification
succeeds, the output has at most 500 characters and is obtained from
the trimmed stringification by deleting characters only — each
replacement runs as one left-to-right pass, so deletions can
concatenate surrounding text into a new `<script>` tag or
`javascript:` occurrence that is not re-scanned. -/
theorem C2_theorem :
    (∀ d, safeToString JsVal.undefinedVal d = d) ∧
    (∀ d, safeToString JsVal.jnull d = d) ∧
    (∀ (v : JsVal) (d s : String), isNullish v = false → jsToStringE v = Except.ok s →
      (safeToString v d).length ≤ 500 ∧
      (safeToString v d).data.Sublist (jsTrimList s.data)) := by
  refine ⟨fun d => rfl, fun d => rfl, ?_⟩
  intro v d s hnull hok
  have hval : safeToString v d =
      ⟨(stripJavascriptUris (stripOnAttrs (stripScriptTags (jsTrimList s.data)))).take 500⟩ := by
    unfold safeToString
    rw [if_neg (by simp [hnull]), hok]
  rw [hval]
  constructor
  · rw [show (⟨(stripJavascriptUris (stripOnAttrs (stripScriptTags (jsTrimList s.data)))).take
        500⟩ : String).length =
        ((stripJavascriptUris (stripOnAttrs (stripScriptTags (jsTrimList s.data)))).take
          500).length from rfl, List.length_take]
    exact min_le_left _ _
  · exact (List.take_sublist _ _).trans ((scanStrip_sublist _ _ _).trans
      ((scanStrip_sublist _ _ _).trans (scanStrip_sublist _ _ _)))

/-- C2 witness: a plain short string keeps the bound and the
deletion-only property. -/
theorem C2_witness :
    (safeToString (JsVal.str "abc") "").length ≤ 500 ∧
    (safeToString (JsVal.str "abc") "").data.Sublist (jsTrimList "abc".data) :=
  C2_theorem.2.2 (JsVal.str "abc") "" "abc" rfl rfl

/-- Digit rendering is never empty. -/
theorem natDigitsAux_ne_nil (fuel n : ℕ) : natDigitsAux (fuel + 1) n ≠ [] := by
  unfold natDigitsAux
  split
  · simp
  · simp [List.append_eq_nil]

/-- Digit rendering is never empty. -/
theorem natDigits_ne_nil (n : ℕ) : natDigits n ≠ [] := natDigitsAux_ne_nil n n

/-- Grouping a nonempty digit list is never empty. -/
theorem groupIndian_ne_nil (ds : List Char) (h : ds ≠ []) : groupIndian ds ≠ [] := by
  unfold groupIndian
  split
  · exact h
  · simp [List.append_eq_nil]

/-- The en-IN rendering of a number is never the empty string. -/
theorem toLocaleStringEnIN_ne_empty (q : ℚ) : toLocaleStringEnIN q ≠ "" := by
  apply strMk_ne_empty
  intro h
  exact groupIndian_ne_nil _ (natDigits_ne_nil _) (List.append_eq_nil.mp
    (List.append_eq_nil.mp h).1).2

/-- The JavaScript `<=` comparison on numbers (`NaN` compares false). -/
def jsNumLE : JSNumber → JSNumber → Bool
  | .nan, _ => false
  | _, .nan => false
  | .negInf, _ => true
  | _, .negInf => false
  | _, .posInf => true
  | .posInf, _ => false
  | .fin a, .fin b => decide (a ≤ b)

/-- C3 counterexample: `Infinity` is a numeric input outside
`[0, 100000000]`, yet the currency sanitizer returns the default
`"N/A"`, not the symbol-prefixed `"₹Invalid"` sentinel — non-finite
numbers take the default branch, not the out-of-range branch. -/
theorem C3_counterexample :
    (jsNumLE (JSNumber.fin 0) JSNumber.posInf &&
      jsNumLE JSNumber.posInf (JSNumber.fin 100000000)) = false ∧
    safeFormatCurrency (JsVal.num JSNumber.posInf) "₹" "N/A" = "N/A" ∧
    ("N/A" : String) ≠ "₹Invalid" :=
  ⟨rfl, rfl, by decide⟩

/-- C3 (amended): for every finite numeric input in `[0, 100000000]`
the currency sanitizer returns the symbol followed by the nonempty
locale-grouped rendering; for every finite input outside the range it
returns `"₹Invalid"` while the plain-number sanitizer returns
`"Invalid"` (the asymmetry is preserved); `null` — like `NaN` and the
infinities — returns the default `"N/A"`. -/
theorem C3_theorem :
    (∀ q : ℚ, 0 ≤ q → q ≤ 100000000 →
      safeFormatCurrency (JsVal.num (JSNumber.fin q)) "₹" "N/A" =
        "₹" ++ toLocaleStringEnIN q ∧
      toLocaleStringEnIN q ≠ "") ∧
    (∀ q : ℚ, q < 0 ∨ q > 100000000 →
      safeFormatCurrency (JsVal.num (JSNumber.fin q)) "₹" "N/A" = "₹Invalid" ∧
      safeFormatNumber (JsVal.num (JSNumber.fin q)) "N/A" = "Invalid" ∧
      ("₹Invalid" : String) ≠ "Invalid") ∧
    safeFormatCurrency JsVal.jnull "₹" "N/A" = "N/A" ∧
    safeFormatCurrency (JsVal.num JSNumber.nan) "₹" "N/A" = "N/A" ∧
    safeFormatCurrency (JsVal.num JSNumber.posInf) "₹" "N/A" = "N/A" ∧
    safeFormatCurrency (JsVal.num JSNumber.negInf) "₹" "N/A" = "N/A" := by
  refine ⟨?_, ?_, rfl, rfl, rfl, rfl⟩
  · intro q h0 h1
    have hcond : ¬(q < 0 ∨ q > 100000000) := by push_neg; exact ⟨h0, h1⟩
    refine ⟨?_, toLocaleStringEnIN_ne_empty q⟩
    show (if q < 0 ∨ q > 100000000 then "₹" ++ "Invalid" else "₹" ++ toLocaleStringEnIN q) =
      "₹" ++ toLocaleStringEnIN q
    exact if_neg hcond
  · intro q hq
    refine ⟨?_, ?_, by decide⟩
    · show (if q < 0 ∨ q > 100000000 then "₹" ++ "Invalid" else "₹" ++ toLocaleStringEnIN q) =
        "₹Invalid"
      rw [if_pos hq]
      rfl
    · show (if q < 0 ∨ q > 100000000 then "Invalid" else toLocaleStringEnIN q) = "Invalid"
      exact if_pos hq

/-- C3 witness: `500` formats as `₹500`; `999999999` is out of range
and yields the two distinct sentinels. -/
theorem C3_witness :
    safeFormatCurrency (JsVal.num (JSNumber.fin 500)) "₹" "N/A" =
      "₹" ++ toLocaleStringEnIN 500 ∧
    safeFormatCurrency (JsVal.num (JSNumber.fin 999999999)) "₹" "N/A" = "₹Invalid" ∧
    safeFormatNumber (JsVal.num (JSNumber.fin 999999999)) "N/A" = "Invalid" :=
  ⟨(C3_theorem.1 500 (by norm_num) (by norm_num)).1,
   (C3_theorem.2.1 999999999 (by norm_num)).1,
   (C3_theorem.2.1 999999999 (by norm_num)).2.1⟩

/-- The formatted date string is never empty. -/
theorem formatDateEnIN_ne_empty (t : Int) : formatDateEnIN t ≠ "" := by
  apply strMk_ne_empty
  intro h
  exact List.noConfusion (List.append_eq_nil.mp h).2

/-- C4: with host parsing `parse` and current time `now`, a nonempty
date string parsing more than one day past `now` yields
`"Invalid Date"`; an unparseable string yields the default; a nonempty
string parsing to a past or near-present timestamp yields its nonempty
locale-formatted date and time. -/
theorem C4_theorem (parse : String → Option Int) (now : Int) (d : String) :
    (∀ (s : String) (t : Int), s ≠ "" → parse s = some t → now + 86400000 < t →
      safeFormatDate parse now (JsVal.str s) d = "Invalid Date") ∧
    (∀ s : String, parse s = none → safeFormatDate parse now (JsVal.str s) d = d) ∧
    (∀ (s : String) (t : Int), s ≠ "" → parse s = some t → t ≤ now + 86400000 →
      safeFormatDate parse now (JsVal.str s) d = formatDateEnIN t ∧
      formatDateEnIN t ≠ "") := by
  refine ⟨?_, ?_, ?_⟩
  · intro s t hs hparse ht
    have hval : safeFormatDate parse now (JsVal.str s) d =
        if t > now + 86400000 then "Invalid Date" else formatDateEnIN t := by
      unfold safeFormatDate
      rw [if_neg (by simp [jsTruthy, hs])]
      simp only [jsToDateE]
      rw [hparse]
    rw [hval, if_pos ht]
  · intro s hparse
    by_cases hs : s = ""
    · subst hs; rfl
    · unfold safeFormatDate
      rw [if_neg (by simp [jsTruthy, hs])]
      simp only [jsToDateE]
      rw [hparse]
  · intro s t hs hparse ht
    have hval : safeFormatDate parse now (JsVal.str s) d =
        if t > now + 86400000 then "Invalid Date" else formatDateEnIN t := by
      unfold safeFormatDate
      rw [if_neg (by simp [jsTruthy, hs])]
      simp only [jsToDateE]
      rw [hparse]
    exact ⟨by rw [hval, if_neg (not_lt.mpr ht)], formatDateEnIN_ne_empty t⟩

/-- C4 witness: with a parse oracle and `now = 0`, a far-future
timestamp is rejected, an unparseable string takes the default, and a
near-present timestamp formats to a nonempty string. -/
theorem C4_witness :
    safeFormatDate (fun _ => some 100000000000) 0 (JsVal.str "future") "N/A" =
      "Invalid Date" ∧
    safeFormatDate (fun _ => none) 0 (JsVal.str "garbage") "N/A" = "N/A" ∧
    (safeFormatDate (fun _ => some 0) 0 (JsVal.str "now") "N/A" = formatDateEnIN 0 ∧
      formatDateEnIN 0 ≠ "") :=
  ⟨(C4_theorem (fun _ => some 100000000000) 0 "N/A").1 "future" 100000000000
      (by decide) rfl (by norm_num),
   (C4_theorem (fun _ => none) 0 "N/A").2.1 "garbage" rfl,
   (C4_theorem (fun _ => some 0) 0 "N/A").2.2 "now" 0 (by decide) rfl (by norm_num)⟩

/-- Evaluation of the payment-method sanitizer on a successful own
lookup. -/
theorem safePaymentMethod_eq_some (v : JsVal) (label : String)
    (h : lookupLabel PAYMENT_METHODS (strLowerAscii (safeToString v "")) = some label) :
    safePaymentMethod v =
      if label == "" then MethodDisplay.str (safeToString v "Unknown")
      else MethodDisplay.str label := by
  simp only [safePaymentMethod]
  rw [h]

/-- Evaluation of the payment-method sanitizer when the own lookup
misses: the prototype chain decides. -/
theorem safePaymentMethod_eq_none (v : JsVal)
    (h : lookupLabel PAYMENT_METHODS (strLowerAscii (safeToString v "")) = none) :
    safePaymentMethod v =
      if objectProtoKeys.contains (strLowerAscii (safeToString v ""))
      then MethodDisplay.hostValue (strLowerAscii (safeToString v ""))
      else MethodDisplay.str (safeToString v "Unknown") := by
  simp only [safePaymentMethod]
  rw [h]

/-- C6 counterexample: on the plain string `"constructor"` the
payment-method sanitizer returns the truthy member inherited from
`Object.prototype` — a function, not a value of the target string
type — so the payment-method sanitizer is not total in its target
type. -/
theorem C6_counterexample :
    safePaymentMethod (JsVal.str "constructor") = MethodDisplay.hostValue "constructor" ∧
    isStringDisplay (safePaymentMethod (JsVal.str "constructor")) = false :=
  ⟨rfl, rfl⟩

/-- C6 (amended): every sanitizer is modelled by a total function and
never throws outward; whenever the conversion inside a `try` block
throws — which only a hostile host object can cause — the catch
returns the supplied default, and the payment-method sanitizer then
falls back to `"Unknown"`.  However the payment-method sanitizer is
not total in the target string type: exactly the inputs whose
sanitized, lower-cased form names an inherited `Object.prototype`
member (reachable: `constructor`, `__proto__`) make it return that
inherited function/object; on every other input it does return a
string. -/
theorem C6_theorem (v : JsVal) (d cur : String) (parse : String → Option Int) (now : Int) :
    (jsToStringE v = Except.error () → safeToString v d = d) ∧
    (jsToNumberE v = Except.error () →
      safeFormatNumber v d = d ∧ safeFormatCurrency v cur d = d) ∧
    (jsToDateE parse v = Except.error () → safeFormatDate parse now v d = d) ∧
    safePaymentMethod (JsVal.hostObj (Except.error ())) = MethodDisplay.str "Unknown" ∧
    (objectProtoKeys.contains (strLowerAscii (safeToString v "")) = false →
      isStringDisplay (safePaymentMethod v) = true) := by
  refine ⟨?_, ?_, ?_, rfl, ?_⟩
  · intro h
    have hnull : isNullish v = false := by
      cases v <;> first
        | rfl
        | exact absurd h (by simp [jsToStringE])
    unfold safeToString
    rw [if_neg (by simp [hnull]), h]
  · intro h
    have hnull : isNullish v = false := by
      cases v <;> first
        | rfl
        | exact absurd h (by simp [jsToNumberE])
    constructor
    · unfold safeFormatNumber
      rw [if_neg (by simp [hnull]), h]
    · unfold safeFormatCurrency
      rw [if_neg (by simp [hnull]), h]
  · intro h
    have htr : jsTruthy v = true := by
      cases v <;> first
        | rfl
        | exact absurd h (by simp [jsToDateE])
    unfold safeFormatDate
    rw [if_neg (by simp [htr]), h]
  · intro hnp
    cases hm : lookupLabel PAYMENT_METHODS (strLowerAscii (safeToString v "")) with
    | some label =>
        rw [safePaymentMethod_eq_some v label hm]
        split <;> rfl
    | none =>
        rw [safePaymentMethod_eq_none v hm, if_neg (by simpa using hnp)]
        rfl

/-- C6 witness: a host object whose conversion throws is absorbed by
every sanitizer, and an ordinary unknown method still yields a
string. -/
theorem C6_witness :
    safeToString (JsVal.hostObj (Except.error ())) "fallback" = "fallback" ∧
    safeFormatNumber (JsVal.hostObj (Except.error ())) "N/A" = "N/A" ∧
    safeFormatCurrency (JsVal.hostObj (Except.error ())) "₹" "N/A" = "N/A" ∧
    safeFormatDate (fun _ => some 0) 0 (JsVal.hostObj (Except.error ())) "N/A" = "N/A" ∧
    safePaymentMethod (JsVal.hostObj (Except.error ())) = MethodDisplay.str "Unknown" ∧
    isStringDisplay (safePaymentMethod (JsVal.str "paypal")) = true :=
  ⟨(C6_theorem (JsVal.hostObj (Except.error ())) "fallback" "₹" (fun _ => some 0) 0).1 rfl,
   ((C6_theorem (JsVal.hostObj (Except.error ())) "N/A" "₹" (fun _ => some 0) 0).2.1 rfl).1,
   ((C6_theorem (JsVal.hostObj (Except.error ())) "N/A" "₹" (fun _ => some 0) 0).2.1 rfl).2,
   (C6_theorem (JsVal.hostObj (Except.error ())) "N/A" "₹" (fun _ => some 0) 0).2.2.1 rfl,
   (C6_theorem (JsVal.hostObj (Except.error ())) "N/A" "₹" (fun _ => some 0) 0).2.2.2.1,
   (C6_theorem (JsVal.str "paypal") "" "" (fun _ => some 0) 0).2.2.2.2 rfl⟩

/-- Labels of the payment-method table are nonempty, so the `||`
fallback never fires on a successful lookup. -/
theorem lookupLabel_payment_ne_empty {k label : String}
    (h : lookupLabel PAYMENT_METHODS k = some label) : label ≠ "" := by
  unfold lookupLabel at h
  cases hf : PAYMENT_METHODS.find? (fun p => p.1 == k) with
  | none => rw [hf] at h; exact Option.noConfusion h
  | some p =>
      rw [hf] at h
      injection h with h2
      subst h2
      have hp := List.mem_of_find?_eq_some hf
      simp only [PAYMENT_METHODS, List.mem_cons, List.not_mem_nil, or_false] at hp
      rcases hp with h | h | h | h | h <;> subst h <;> decide

/-- C9 counterexample: the unknown method `"paypal"` maps to the
sanitized string `"paypal"`, not to `"Unknown"`; and the unknown
method `"constructor"` maps to the inherited `Object.prototype`
member, not to `"Unknown"` and not to its sanitized string either. -/
theorem C9_counterexample :
    safePaymentMethod (JsVal.str "paypal") = MethodDisplay.str "paypal" ∧
    MethodDisplay.str "paypal" ≠ MethodDisplay.str "Unknown" ∧
    safePaymentMethod (JsVal.str "constructor") = MethodDisplay.hostValue "constructor" ∧
    MethodDisplay.hostValue "constructor" ≠ MethodDisplay.str "Unknown" ∧
    MethodDisplay.hostValue "constructor" ≠
      MethodDisplay.str (safeToString (JsVal.str "constructor") "Unknown") :=
  ⟨rfl, by decide, rfl, by decide, by decide⟩

/-- C9 (amended): a value whose sanitized, lower-cased form is a key
of the fixed enumeration maps to its display label (case-insensitive
match); a form naming an inherited `Object.prototype` member
(reachable after lower-casing: `constructor`, `__proto__`)
short-circuits the `||` and yields that truthy inherited
function/object instead of a string; any other value passes through
the text sanitizer with default `"Unknown"`, so it maps to its own
sanitized string and to `"Unknown"` exactly when the input is
`null`/`undefined` (or its stringification throws). -/
theorem C9_theorem (v : JsVal) :
    (∀ label, lookupLabel PAYMENT_METHODS (strLowerAscii (safeToString v "")) = some label →
      safePaymentMethod v = MethodDisplay.str label) ∧
    (lookupLabel PAYMENT_METHODS (strLowerAscii (safeToString v "")) = none →
      objectProtoKeys.contains (strLowerAscii (safeToString v "")) = true →
      safePaymentMethod v = MethodDisplay.hostValue (strLowerAscii (safeToString v ""))) ∧
    (lookupLabel PAYMENT_METHODS (strLowerAscii (safeToString v "")) = none →
      objectProtoKeys.contains (strLowerAscii (safeToString v "")) = false →
      safePaymentMethod v = MethodDisplay.str (safeToString v "Unknown")) ∧
    safePaymentMethod JsVal.jnull = MethodDisplay.str "Unknown" ∧
    safePaymentMethod JsVal.undefinedVal = MethodDisplay.str "Unknown" := by
  refine ⟨?_, ?_, ?_, rfl, rfl⟩
  · intro label h
    have hne := lookupLabel_payment_ne_empty h
    rw [safePaymentMethod_eq_some v label h]
    simp [hne]
  · intro h hp
    rw [safePaymentMethod_eq_none v h, if_pos hp]
  · intro h hp
    rw [safePaymentMethod_eq_none v h, if_neg (by simpa using hp)]

/-- C9 witness: the case-insensitive, trimmed `"  CREDIT_CARD "` is
recognized; `"Constructor"` lower-cases onto the prototype chain; the
unknown `"stripe"` passes through the text sanitizer. -/
theorem C9_witness :
    safePaymentMethod (JsVal.str "  CREDIT_CARD ") = MethodDisplay.str "Credit Card" ∧
    safePaymentMethod (JsVal.str "Constructor") = MethodDisplay.hostValue "constructor" ∧
    safePaymentMethod (JsVal.str "stripe") =
      MethodDisplay.str (safeToString (JsVal.str "stripe") "Unknown") :=
  ⟨(C9_theorem (JsVal.str "  CREDIT_CARD ")).1 "Credit Card" rfl,
   (C9_theorem (JsVal.str "Constructor")).2.1 rfl rfl,
   (C9_theorem (JsVal.str "stripe")).2.2.1 rfl rfl⟩
